import Mathlib

/-!
Verification of the poptranscribe audio-capture and transcription core.

This file gives a shallow embedding, in Lean 4, of the parts of the
repository that the specification claims talk about:

- the sample-conversion utilities of `src-tauri/src/audio/capture.rs`
  (`downmix_to_mono_i16`, `f32_to_i16`, the `u16 -> i16` conversion inlined
  in the capture callbacks, `resample_simple`) and of
  `src-tauri/src/mistral/realtime.rs` (`resample`);
- the sample mixer of `src-tauri/src/audio/mixer.rs` (`mix_samples`);
- the per-callback processing pipelines of `start_mic_capture` (mic-only
  mode) and `start_visio_mic` (the microphone leg of mixed-source mode);
- the active-session state machine of `src-tauri/src/commands.rs`
  (`start_session`, `stop_session`) over `AppState` of `app_state.rs`;
- the WebSocket event-receiver loop of `connect_realtime` in
  `src-tauri/src/mistral/realtime.rs`.

Modelling conventions:

- `i16` samples are embedded as `Int`; the `as i16` integer cast is
  `wrap16` (two's-complement wrap) and the saturating float-to-int cast is
  `i16Sat`;
- `f32`/`f64` arithmetic is embedded as exact rational arithmetic on `ℚ`;
  floating-point rounding error is abstracted away, the operations
  (division, multiplication, `floor`, `ceil`, `round`) keep their real
  meaning;
- a Rust panic is embedded as `Option.none` (`downmix_to_mono_i16` panics
  on a zero chunk size in `chunks_exact`; `resample_simple` overflows
  `Vec::with_capacity` when `from_rate == 0` on nonempty input);
- the hardware callbacks are pure chunk transformers: a callback run
  either drops the buffer, forwards a chunk to the channel, or panics;
- the Tauri commands are state transformers on an explicit `AppState`;
  the database, the emitted UI events and the spawned background tasks
  are abstracted into explicit parameters and result values.
-/

/-- Saturating cast of an integer into the i16 range, as performed by the
Rust float-to-integer `as i16` cast and by `clamp(i16::MIN, i16::MAX)`. -/
def i16Sat (x : Int) : Int := max (-32768) (min 32767 x)

/-- Two's-complement wrap of an integer into the i16 range, as performed by
the Rust integer-to-integer `as i16` cast. -/
def wrap16 (x : Int) : Int := (x + 32768) % 65536 - 32768

/-- Truncation of a rational toward zero, as performed by the Rust
float-to-integer `as` cast on an in-range value. -/
def ratTrunc (x : ℚ) : Int := if 0 ≤ x then ⌊x⌋ else ⌈x⌉

/-- Rounding of a rational to the nearest integer with ties away from
zero: the semantics of Rust `f64::round`. -/
def roundAway (x : ℚ) : Int := if 0 ≤ x then ⌊x + 1 / 2⌋ else -⌊-x + 1 / 2⌋

/-- Model of `slice::chunks_exact(c)` collected into a list: the complete
frames of length `c`, the trailing partial frame dropped. The `c = 0`
panic of the Rust iterator is handled by the caller `downmix_to_mono_i16`. -/
def chunksExact (c : Nat) (l : List Int) : List (List Int) :=
  (List.range (l.length / c)).map (fun i => (l.drop (i * c)).take c)

/-- capture.rs, `downmix_to_mono_i16(data, channels)`: identity for one
channel, otherwise the per-frame i32 sum divided by the channel count
(Rust `/` on i32 truncates toward zero, hence `Int.tdiv`) and cast back to
i16. `none` models the `chunks_exact` panic on a zero chunk size. The i32
sum cannot overflow because cpal channel counts are `u16`. -/
def downmix_to_mono_i16 (data : List Int) (channels : Nat) : Option (List Int) :=
  if channels = 1 then some data
  else if channels = 0 then none
  else some ((chunksExact channels data).map
    (fun frame => wrap16 (Int.tdiv frame.sum (channels : Int))))

/-- capture.rs, `f32_to_i16(sample)`: clamp to [-1, 1], scale by
`i16::MAX = 32767`, cast to i16 (the float cast truncates toward zero and
saturates). -/
def f32_to_i16 (sample : ℚ) : Int :=
  i16Sat (ratTrunc (min 1 (max (-1) sample) * 32767))

/-- The u16-to-i16 recentering conversion inlined in the capture callbacks:
`(s as i32 - 32768) as i16`. -/
def uint16_to_int16 (s : Nat) : Int := wrap16 ((s : Int) - 32768)

/-- capture.rs, the bracketing linear interpolation at source position
`pos` inside the `resample_simple` loop: `idx = src_pos as usize`,
`frac = src_pos - idx`, interpolate when `idx + 1` is in bounds, else
clamp to the final sample. The `getD` default is never reached for a
nonempty list. -/
def interpAt (samples : List Int) (pos : ℚ) : ℚ :=
  if (⌊pos⌋).toNat + 1 < samples.length then
    ((samples.getD (⌊pos⌋).toNat 0 : Int) : ℚ) * (1 - (pos - (((⌊pos⌋).toNat : Nat) : ℚ)))
      + ((samples.getD ((⌊pos⌋).toNat + 1) 0 : Int) : ℚ) * (pos - (((⌊pos⌋).toNat : Nat) : ℚ))
  else
    ((samples.getD (min (⌊pos⌋).toNat (samples.length - 1)) 0 : Int) : ℚ)

/-- capture.rs, `resample_simple(samples, from_rate, to_rate)`: identity
when the rates agree or the input is empty; otherwise output length
`ceil(len / (from_rate / to_rate))` and each output index `i` is the
rounded linear interpolation at source position `i * (from_rate /
to_rate)`. `none` models the capacity-overflow panic of
`Vec::with_capacity(usize::MAX)` when `from_rate = 0` makes the f64 output
length infinite and the `as usize` cast saturate. -/
def resample_simple (samples : List Int) (from_rate to_rate : Nat) : Option (List Int) :=
  if from_rate = to_rate ∨ samples = [] then some samples
  else if from_rate = 0 then none
  else
    some ((List.range ((⌈(samples.length : ℚ) / ((from_rate : ℚ) / (to_rate : ℚ))⌉).toNat)).map
      (fun (i : Nat) =>
        i16Sat (roundAway (interpAt samples ((i : ℚ) * ((from_rate : ℚ) / (to_rate : ℚ)))))))

/-- realtime.rs, `resample(samples, from_rate, to_rate)`: the streaming
client's own copy of the linear resampler; its Rust body is
character-for-character the body of `resample_simple`. -/
def resample (samples : List Int) (from_rate to_rate : Nat) : Option (List Int) :=
  if from_rate = to_rate ∨ samples = [] then some samples
  else if from_rate = 0 then none
  else
    some ((List.range ((⌈(samples.length : ℚ) / ((from_rate : ℚ) / (to_rate : ℚ))⌉).toNat)).map
      (fun (i : Nat) =>
        i16Sat (roundAway (interpAt samples ((i : ℚ) * ((from_rate : ℚ) / (to_rate : ℚ)))))))

/-- mixer.rs, `mix_samples(a, b)`: length is the max of the two lengths,
missing samples read as 0 (silence padding), each i32 sum clamped to the
i16 range. -/
def mix_samples (a b : List Int) : List Int :=
  (List.range (max a.length b.length)).map
    (fun i => i16Sat (a.getD i 0 + b.getD i 0))

/-- Outcome of one hardware callback run: the buffer is dropped (capturing
flag false), a chunk is forwarded to the mpsc channel, or the callback
panics. A send whose receiver has disconnected is still `sent`: the code
discards the send result with `let _ = tx.send(..)`. -/
inductive CallbackResult where
  | dropped
  | sent (chunk : List Int)
  | panicked
deriving DecidableEq, Repr

/-- capture.rs lines 436-451, the `SampleFormat::I16` callback of
`start_mic_capture` (mic-only mode): check the capturing flag, downmix to
mono, send. No resampling happens in this mode; the negotiated rate is
recorded in `actual_sample_rate` instead. -/
def start_mic_capture_onI16 (capturing : Bool) (channels : Nat) (data : List Int) :
    CallbackResult :=
  if capturing = false then .dropped
  else
    match downmix_to_mono_i16 data channels with
    | none => .panicked
    | some mono => .sent mono

/-- capture.rs lines 452-471, the `SampleFormat::F32` callback of
`start_mic_capture`: convert each f32 sample to i16, downmix, send. -/
def start_mic_capture_onF32 (capturing : Bool) (channels : Nat) (data : List ℚ) :
    CallbackResult :=
  if capturing = false then .dropped
  else
    match downmix_to_mono_i16 (data.map f32_to_i16) channels with
    | none => .panicked
    | some mono => .sent mono

/-- capture.rs lines 472-491, the `SampleFormat::U16` callback of
`start_mic_capture`: recenter each u16 sample to i16, downmix, send. -/
def start_mic_capture_onU16 (capturing : Bool) (channels : Nat) (data : List Nat) :
    CallbackResult :=
  if capturing = false then .dropped
  else
    match downmix_to_mono_i16 (data.map uint16_to_int16) channels with
    | none => .panicked
    | some mono => .sent mono

/-- capture.rs lines 334-349, the `SampleFormat::I16` callback of
`start_visio_mic` (the microphone leg of mixed-source mode): check the
flag, downmix, resample from the negotiated `mic_rate` to 16000, send. -/
def start_visio_mic_onI16 (capturing : Bool) (channels mic_rate : Nat) (data : List Int) :
    CallbackResult :=
  if capturing = false then .dropped
  else
    match downmix_to_mono_i16 data channels with
    | none => .panicked
    | some mono =>
      match resample_simple mono mic_rate 16000 with
      | none => .panicked
      | some resampled => .sent resampled

/-- capture.rs lines 350-366, the `SampleFormat::F32` callback of
`start_visio_mic`: convert to i16, downmix, resample to 16000, send. -/
def start_visio_mic_onF32 (capturing : Bool) (channels mic_rate : Nat) (data : List ℚ) :
    CallbackResult :=
  if capturing = false then .dropped
  else
    match downmix_to_mono_i16 (data.map f32_to_i16) channels with
    | none => .panicked
    | some mono =>
      match resample_simple mono mic_rate 16000 with
      | none => .panicked
      | some resampled => .sent resampled

/-- capture.rs lines 367-386, the `SampleFormat::U16` callback of
`start_visio_mic`: recenter to i16, downmix, resample to 16000, send. -/
def start_visio_mic_onU16 (capturing : Bool) (channels mic_rate : Nat) (data : List Nat) :
    CallbackResult :=
  if capturing = false then .dropped
  else
    match downmix_to_mono_i16 (data.map uint16_to_int16) channels with
    | none => .panicked
    | some mono =>
      match resample_simple mono mic_rate 16000 with
      | none => .panicked
      | some resampled => .sent resampled

/-- app_state.rs, `ActiveSession`: the contents of the single
active-recording slot. `capturerCapturing` is the capturer's atomic
capturing flag (true after a successful `AudioCapturer::start`). -/
structure ActiveSession where
  id : String
  capturerCapturing : Bool
  audio_samples : List Int
  sample_rate : Nat
  stop_signal : Bool
deriving DecidableEq, Repr

/-- app_state.rs, `AppState`, restricted to the fields `start_session` and
`stop_session` read and write: the mutex-guarded active-session slot and
the cached API key. The database handle is abstracted away. -/
structure AppState where
  active_session : Option ActiveSession
  api_key : String
deriving DecidableEq, Repr

/-- The error cases of commands.rs `start_session` and `stop_session`;
each constructor stands for the French error string the command returns. -/
inductive CommandError where
  | alreadyActive
  | apiKeyMissing
  | captureStartFailed (e : String)
  | noActiveSession
  | idMismatch (activeId requestedId : String)
deriving DecidableEq, Repr

/-- A Tauri event emitted to the UI by the background task. -/
inductive UiEvent where
  | sessionError (message : String)
deriving DecidableEq, Repr

/-- commands.rs lines 21-196, the synchronous body of `start_session`.
`sessionId` abstracts the id the database hands back for the freshly
created session row; `captureStart` is the outcome of
`AudioCapturer::start()` (`ok` carries the negotiated
`actual_sample_rate`). The real-time connect runs in a spawned task
(lines 76-183) and is therefore *not* an input: the synchronous return
value cannot depend on it. On success the command stores an
`ActiveSession` whose capturer is capturing, with an empty accumulation
buffer and an unraised stop signal. -/
def start_session (st : AppState) (sessionId : String)
    (captureStart : Except String Nat) : Except CommandError String × AppState :=
  if st.active_session.isSome then (.error .alreadyActive, st)
  else if st.api_key = "" then (.error .apiKeyMissing, st)
  else
    match captureStart with
    | .error e => (.error (.captureStartFailed e), st)
    | .ok actual_sample_rate =>
      (.ok sessionId,
       { st with
          active_session := some
            { id := sessionId
              capturerCapturing := true
              audio_samples := []
              sample_rate := actual_sample_rate
              stop_signal := false } })

/-- commands.rs lines 81-96, the connect step of the background task
spawned by `start_session`: on a `connect_realtime` error it emits a
single `session-error` UI event and returns, leaving the active-session
slot and the capturer untouched. -/
def session_bg_connect (connectResult : Except String Unit) : List UiEvent :=
  match connectResult with
  | .error e => [.sessionError ("Erreur connexion transcription: " ++ e)]
  | .ok _ => []

/-- commands.rs lines 204-235, the slot transaction of `stop_session`:
with no active session it fails; with a mismatched id it puts the taken
session back unchanged and fails; on a match it raises the stop signal,
stops the capturer, extracts the accumulated samples with their rate, and
clears the slot. -/
def stop_session (st : AppState) (sessionId : String) :
    Except CommandError (List Int × Nat) × AppState :=
  match st.active_session with
  | none => (.error .noActiveSession, st)
  | some session =>
    if session.id ≠ sessionId then
      (.error (.idMismatch session.id sessionId), st)
    else
      (.ok (session.audio_samples, session.sample_rate),
       { st with active_session := none })

/-- realtime.rs, the inbound message shapes of `WsIncoming` that the
receiver loop can see after the handshake (tag names as in the `serde`
attributes; the `error` payload is abstracted to its display string). -/
inductive WsIncoming where
  | sessionCreated
  | sessionUpdated
  | language (audio_language : String)
  | textDelta (text : String)
  | segment (text : String) (start stop : ℚ)
  | done (text : String)
  | error (details : String)
deriving DecidableEq, Repr

/-- One item consumed from the WebSocket read half: a text frame that
parses as `WsIncoming`, an unparseable text frame, a close frame, any
other frame kind (binary, ping, ...), or a transport read error. -/
inductive WsMsg where
  | textOk (event : WsIncoming)
  | textBad (raw : String)
  | closeFrame
  | otherFrame
  | readErr (e : String)
deriving DecidableEq, Repr

/-- realtime.rs, `TranscriptionEvent`: the events the receiver task
forwards to the orchestrator. -/
inductive TranscriptionEvent where
  | language (audio_language : String)
  | textDelta (text : String)
  | segment (text : String) (start stop : ℚ)
  | done (text : String)
  | error (message : String)
deriving DecidableEq, Repr

/-- Whether a `TranscriptionEvent` is the `Error` variant. -/
def isErrorEvent : TranscriptionEvent → Bool
  | .error _ => true
  | _ => false

/-- realtime.rs lines 265-317, the receiver task of `connect_realtime` as
a function from the inbound message sequence to the ordered event
sequence it forwards: a read error forwards `Error` and breaks; a close
frame breaks; other frames and unparseable text are skipped;
`session.created` / `session.updated` fall into the catch-all arm and are
skipped; `done` forwards `Done` and breaks; a server `error` event
forwards `Error` and breaks; the remaining events are forwarded and the
loop continues. -/
def processMessages : List WsMsg → List TranscriptionEvent
  | [] => []
  | .readErr e :: _ => [.error ("WebSocket read error: " ++ e)]
  | .closeFrame :: _ => []
  | .otherFrame :: rest => processMessages rest
  | .textBad _ :: rest => processMessages rest
  | .textOk .sessionCreated :: rest => processMessages rest
  | .textOk .sessionUpdated :: rest => processMessages rest
  | .textOk (.language c) :: rest => .language c :: processMessages rest
  | .textOk (.textDelta t) :: rest => .textDelta t :: processMessages rest
  | .textOk (.segment t s e) :: rest => .segment t s e :: processMessages rest
  | .textOk (.done t) :: _ => [.done t]
  | .textOk (.error d) :: _ => [.error ("Erreur serveur: " ++ d)]

/-- Whether the receiver loop terminates (breaks) strictly inside the
given message prefix. -/
def stopsWithin : List WsMsg → Bool
  | [] => false
  | .readErr _ :: _ => true
  | .closeFrame :: _ => true
  | .textOk (.done _) :: _ => true
  | .textOk (.error _) :: _ => true
  | _ :: rest => stopsWithin rest

/-- A saturating cast is the identity on in-range values. -/
theorem i16Sat_eq_self {x : Int} (h1 : -32768 ≤ x) (h2 : x ≤ 32767) : i16Sat x = x := by
  simp only [i16Sat]
  omega

/-- A wrapping cast is the identity on in-range values. -/
theorem wrap16_eq_self {x : Int} (h1 : -32768 ≤ x) (h2 : x ≤ 32767) : wrap16 x = x := by
  simp only [wrap16]
  omega

/-- Claim C10: the two linear resamplers, `resample_simple` in the capture
engine and `resample` in the streaming client, are extensionally equal:
identical output on every buffer and every pair of rates. Their Rust
bodies are textually identical, so the two embeddings reduce to the same
term. -/
theorem C10_resample_implementations_equal :
    ∀ (samples : List Int) (from_rate to_rate : Nat),
      resample_simple samples from_rate to_rate = resample samples from_rate to_rate :=
  fun _ _ _ => rfl

/-- Claim C6: mixing returns a buffer of length `max |a| |b|` whose element
`i` is `a[i] + b[i]` with the shorter buffer zero-padded and each sum
clamped to the i16 range; in particular `[1000,2000,3000] + [500,1000,1500]
= [1500,3000,4500]` with no clamping, `[i16::MAX] + [1000] = [i16::MAX]`,
and `[i16::MIN] + [-1000] = [i16::MIN]`. -/
theorem C6_mix_samples_spec :
    (∀ a b : List Int,
        (mix_samples a b).length = max a.length b.length
        ∧ ∀ i, i < (mix_samples a b).length →
            (mix_samples a b).getD i 0 = i16Sat (a.getD i 0 + b.getD i 0))
    ∧ mix_samples [1000, 2000, 3000] [500, 1000, 1500] = [1500, 3000, 4500]
    ∧ mix_samples [32767] [1000] = [32767]
    ∧ mix_samples [-32768] [-1000] = [-32768] := by
  refine ⟨fun a b => ⟨by simp [mix_samples], fun i hi => ?_⟩, by decide, by decide, by decide⟩
  have hlen : i < max a.length b.length := by
    simpa [mix_samples] using hi
  simp [mix_samples, List.getD_eq_getElem?_getD, List.getElem?_range hlen]

/-- Claim C6 witness: the elementwise description applied at a concrete
unequal-length pair. -/
theorem C6_mix_samples_spec_witness :
    (mix_samples [1, 2] [3]).getD 0 0
      = i16Sat (([1, 2] : List Int).getD 0 0 + ([3] : List Int).getD 0 0) :=
  (C6_mix_samples_spec.1 [1, 2] [3]).2 0 (by decide)

/-- Claim C7: `start_session` called while an active recording exists
returns the already-active error without queuing, and the state — the
slot and the recording it holds — is returned unchanged. -/
theorem C7_start_session_already_active :
    ∀ (st : AppState) (s : ActiveSession) (sessionId : String)
      (captureStart : Except String Nat),
      st.active_session = some s →
      start_session st sessionId captureStart = (.error .alreadyActive, st) := by
  intro st s sessionId captureStart h
  simp [start_session, h]

/-- Claim C7 witness: a second start against a concrete active session. -/
theorem C7_start_session_already_active_witness :
    (let s : ActiveSession :=
      { id := "rec1", capturerCapturing := true, audio_samples := [12],
        sample_rate := 48000, stop_signal := false }
     let st : AppState := { active_session := some s, api_key := "key" }
     start_session st "rec2" (.ok 16000) = (.error .alreadyActive, st)) :=
  C7_start_session_already_active _ _ "rec2" (.ok 16000) rfl

/-- Claim C8: `stop_session` with no active recording returns the
no-active-recording error; with a mismatched id it returns the id-mismatch
error and leaves the slot untouched, so the same recording is still
stoppable afterward with the correct id, yielding its accumulated samples
and rate and clearing the slot. -/
theorem C8_stop_session_errors :
    (∀ (st : AppState) (sessionId : String),
        st.active_session = none →
        stop_session st sessionId = (.error .noActiveSession, st))
    ∧ (∀ (st : AppState) (s : ActiveSession) (sessionId : String),
        st.active_session = some s → s.id ≠ sessionId →
        stop_session st sessionId = (.error (.idMismatch s.id sessionId), st)
        ∧ (stop_session st s.id).1 = .ok (s.audio_samples, s.sample_rate)
        ∧ (stop_session st s.id).2.active_session = none) := by
  constructor
  · intro st sessionId h
    simp [stop_session, h]
  · intro st s sessionId h hne
    refine ⟨?_, ?_, ?_⟩ <;> simp [stop_session, h, hne]

/-- Claim C8 witness: both error paths and the subsequent successful stop
at a concrete state. -/
theorem C8_stop_session_errors_witness :
    (let s : ActiveSession :=
      { id := "rec1", capturerCapturing := true, audio_samples := [3, 4],
        sample_rate := 44100, stop_signal := false }
     let st : AppState := { active_session := some s, api_key := "key" }
     stop_session { active_session := none, api_key := "key" } "rec1"
        = (.error .noActiveSession, { active_session := none, api_key := "key" })
     ∧ stop_session st "wrong" = (.error (.idMismatch "rec1" "wrong"), st)
     ∧ (stop_session st "rec1").1 = .ok ([3, 4], 44100)
     ∧ (stop_session st "rec1").2.active_session = none) := by
  refine ⟨C8_stop_session_errors.1 _ "rec1" rfl, ?_⟩
  have h := C8_stop_session_errors.2
    { active_session := some
        { id := "rec1", capturerCapturing := true, audio_samples := [3, 4],
          sample_rate := 44100, stop_signal := false }, api_key := "key" }
    { id := "rec1", capturerCapturing := true, audio_samples := [3, 4],
      sample_rate := 44100, stop_signal := false }
    "wrong" rfl (by decide)
  exact h

/-- Claim C2 counterexample: with no prior session, a valid API key and a
successfully opened capture device, `start_session` returns success and
stores a capturing session even though the realtime connect fails; the
handshake failure is only emitted later by the background task as a
session-error UI event. The claim that session start fails synchronously
and tears the capture down is therefore false on the code. -/
theorem C2_counterexample :
    (start_session { active_session := none, api_key := "key" } "rec1" (.ok 48000)).1
      = .ok "rec1"
    ∧ (start_session { active_session := none, api_key := "key" } "rec1" (.ok 48000)).2.active_session
        = some { id := "rec1", capturerCapturing := true, audio_samples := [],
                 sample_rate := 48000, stop_signal := false }
    ∧ session_bg_connect (.error "WebSocket connection failed")
        = [.sessionError "Erreur connexion transcription: WebSocket connection failed"] :=
  ⟨rfl, rfl, rfl⟩

/-- Claim C2 as amended: a connect/handshake failure does not fail
`start_session`. The command has already returned success with the
capture session stored (capturer capturing, empty accumulation buffer);
the failure is reported asynchronously as exactly one session-error UI
event by the spawned background task, which leaves the slot and the
capturer untouched. Device-open failures, by contrast, are synchronous. -/
theorem C2_async_connect_failure :
    ∀ (st : AppState) (sessionId : String) (rate : Nat) (e : String),
      st.active_session = none → st.api_key ≠ "" →
      (start_session st sessionId (.ok rate)).1 = .ok sessionId
      ∧ (start_session st sessionId (.ok rate)).2.active_session
          = some { id := sessionId, capturerCapturing := true, audio_samples := [],
                   sample_rate := rate, stop_signal := false }
      ∧ session_bg_connect (.error e)
          = [.sessionError ("Erreur connexion transcription: " ++ e)] := by
  intro st sessionId rate e h hk
  refine ⟨?_, ?_, rfl⟩ <;> simp [start_session, h, hk]

/-- Claim C2 amended witness: the asynchronous failure path at a concrete
state and error. -/
theorem C2_async_connect_failure_witness :
    (start_session { active_session := none, api_key := "key" } "rec9" (.ok 44100)).1
      = .ok "rec9"
    ∧ (start_session { active_session := none, api_key := "key" } "rec9" (.ok 44100)).2.active_session
        = some { id := "rec9", capturerCapturing := true, audio_samples := [],
                 sample_rate := 44100, stop_signal := false }
    ∧ session_bg_connect (.error "boom")
        = [.sessionError ("Erreur connexion transcription: " ++ "boom")] :=
  C2_async_connect_failure _ "rec9" 44100 "boom" rfl (by decide)

/-- Claim C3 counterexample: `downmix_to_mono_i16` called with a
degenerate channel count of 0 on a nonempty buffer does not degrade to
identity or empty output — `chunks_exact(0)` panics ("chunk size must be
non-zero"), modelled as `none`. -/
theorem C3_counterexample : downmix_to_mono_i16 [0] 0 = none := rfl

/-- Claim C9: once a server-reported error event is consumed by the
receiver loop (no earlier message already terminated it), exactly one
`Error` transcription event is produced, it is the final event, and no
further event of any kind is produced — whatever messages arrive on the
transport afterwards. -/
theorem C9_error_event_terminates_stream :
    ∀ (pre : List WsMsg) (details : String) (rest : List WsMsg),
      stopsWithin pre = false →
      processMessages (pre ++ WsMsg.textOk (WsIncoming.error details) :: rest)
        = processMessages pre ++ [TranscriptionEvent.error ("Erreur serveur: " ++ details)]
      ∧ ∀ ev ∈ processMessages pre, isErrorEvent ev = false := by
  intro pre details rest h
  induction pre with
  | nil => simp [processMessages]
  | cons m pre ih =>
    cases m with
    | textOk e =>
      cases e with
      | sessionCreated => simpa [processMessages, stopsWithin] using ih (by simpa [stopsWithin] using h)
      | sessionUpdated => simpa [processMessages, stopsWithin] using ih (by simpa [stopsWithin] using h)
      | language c =>
        have := ih (by simpa [stopsWithin] using h)
        refine ⟨by simp [processMessages, this.1], ?_⟩
        intro ev hev
        rcases List.mem_cons.mp (by simpa [processMessages] using hev) with h1 | h1
        · simp [h1, isErrorEvent]
        · exact this.2 ev h1
      | textDelta t =>
        have := ih (by simpa [stopsWithin] using h)
        refine ⟨by simp [processMessages, this.1], ?_⟩
        intro ev hev
        rcases List.mem_cons.mp (by simpa [processMessages] using hev) with h1 | h1
        · simp [h1, isErrorEvent]
        · exact this.2 ev h1
      | segment t s e =>
        have := ih (by simpa [stopsWithin] using h)
        refine ⟨by simp [processMessages, this.1], ?_⟩
        intro ev hev
        rcases List.mem_cons.mp (by simpa [processMessages] using hev) with h1 | h1
        · simp [h1, isErrorEvent]
        · exact this.2 ev h1
      | done t => simp [stopsWithin] at h
      | error d => simp [stopsWithin] at h
    | textBad r =>
      simpa [processMessages, stopsWithin] using ih (by simpa [stopsWithin] using h)
    | closeFrame => simp [stopsWithin] at h
    | otherFrame =>
      simpa [processMessages, stopsWithin] using ih (by simpa [stopsWithin] using h)
    | readErr e => simp [stopsWithin] at h

/-- Claim C9 witness: a delta, then a server error, then a late segment
and a late done that are never surfaced. -/
theorem C9_error_event_terminates_stream_witness :
    processMessages
        ([WsMsg.textOk (WsIncoming.textDelta "bonjour")]
          ++ WsMsg.textOk (WsIncoming.error "invalid request")
            :: [WsMsg.textOk (WsIncoming.segment "late" 0 1),
                WsMsg.textOk (WsIncoming.done "late")])
      = processMessages [WsMsg.textOk (WsIncoming.textDelta "bonjour")]
          ++ [TranscriptionEvent.error ("Erreur serveur: " ++ "invalid request")] :=
  (C9_error_event_terminates_stream
    [WsMsg.textOk (WsIncoming.textDelta "bonjour")] "invalid request"
    [WsMsg.textOk (WsIncoming.segment "late" 0 1), WsMsg.textOk (WsIncoming.done "late")]
    rfl).1

/-- Truncating division is bounded above by any nonnegative `B` with
`s ≤ B * c`. -/
theorem tdiv_le_of_le_mul {s B c : Int} (hc : 0 < c) (hB : 0 ≤ B) (h : s ≤ B * c) :
    Int.tdiv s c ≤ B := by
  rcases le_or_lt 0 s with hs | hs
  · rw [Int.tdiv_eq_ediv hs hc.le]
    calc s / c ≤ (B * c) / c := Int.ediv_le_ediv hc h
    _ = B := Int.mul_ediv_cancel B (ne_of_gt hc)
  · have h2 : (0 : Int) ≤ Int.tdiv (-s) c := Int.tdiv_nonneg (by omega) hc.le
    have h3 : Int.tdiv (-s) c = -(Int.tdiv s c) := Int.neg_tdiv s c
    omega

/-- Truncating division is bounded below by any nonpositive `A` with
`A * c ≤ s`. -/
theorem le_tdiv_of_mul_le {s A c : Int} (hc : 0 < c) (hA : A ≤ 0) (h : A * c ≤ s) :
    A ≤ Int.tdiv s c := by
  rcases le_or_lt 0 s with hs | hs
  · have := Int.tdiv_nonneg hs hc.le
    omega
  · have h3 : Int.tdiv (-s) c = -(Int.tdiv s c) := Int.neg_tdiv s c
    have h4 : Int.tdiv (-s) c = (-s) / c := Int.tdiv_eq_ediv (by omega) hc.le
    have h5 : (-s) / c ≤ (-A * c) / c := Int.ediv_le_ediv hc (by linarith)
    have h6 : (-A * c) / c = -A := Int.mul_ediv_cancel _ (ne_of_gt hc)
    linarith

/-- Away-from-zero rounding never exceeds an integer upper bound of its
argument. -/
theorem roundAway_le {x : ℚ} {B : Int} (h : x ≤ (B : ℚ)) : roundAway x ≤ B := by
  rw [roundAway]
  split
  · have : (⌊x + 1 / 2⌋ : Int) < B + 1 := by
      rw [Int.floor_lt]
      push_cast
      linarith
    omega
  · have : (-B : Int) ≤ ⌊-x + 1 / 2⌋ := by
      rw [Int.le_floor]
      push_cast
      linarith
    omega

/-- Away-from-zero rounding never undershoots an integer lower bound of
its argument. -/
theorem le_roundAway {x : ℚ} {A : Int} (h : (A : ℚ) ≤ x) : A ≤ roundAway x := by
  rw [roundAway]
  split
  · have : A ≤ ⌊x + 1 / 2⌋ := by
      rw [Int.le_floor]
      linarith
    omega
  · have : (⌊-x + 1 / 2⌋ : Int) < -A + 1 := by
      rw [Int.floor_lt]
      push_cast
      linarith
    omega

/-- Truncation toward zero never exceeds an integer upper bound of its
argument. -/
theorem ratTrunc_le {x : ℚ} {B : Int} (h : x ≤ (B : ℚ)) : ratTrunc x ≤ B := by
  rw [ratTrunc]
  split
  · exact Int.le_of_lt_add_one (by rw [Int.floor_lt]; push_cast; linarith)
  · exact Int.ceil_le.mpr h

/-- Truncation toward zero never undershoots an integer lower bound of its
argument. -/
theorem le_ratTrunc {x : ℚ} {A : Int} (h : (A : ℚ) ≤ x) : A ≤ ratTrunc x := by
  rw [ratTrunc]
  split
  · exact Int.le_floor.mpr h
  · have : (A : ℚ) ≤ (⌈x⌉ : ℚ) := le_trans h (Int.le_ceil x)
    exact_mod_cast this

/-- A default-0 list read stays inside any bounds that contain 0 and every
element. -/
theorem getD_bound {s : List Int} {A B : Int} (hA : A ≤ 0) (hB : 0 ≤ B)
    (hmem : ∀ a ∈ s, A ≤ a ∧ a ≤ B) (i : Nat) : A ≤ s.getD i 0 ∧ s.getD i 0 ≤ B := by
  by_cases hi : i < s.length
  · have : s.getD i 0 = s[i] := by
      simp [List.getD_eq_getElem?_getD, List.getElem?_eq_getElem hi]
    rw [this]
    exact hmem _ (List.getElem_mem hi)
  · have : s.getD i 0 = 0 := by
      simp [List.getD_eq_getElem?_getD, List.getElem?_eq_none (by omega : s.length ≤ i)]
    rw [this]
    exact ⟨hA, hB⟩

/-- The interpolated value at a nonnegative source position stays inside
any integer bounds that contain 0 and every sample. -/
theorem interpAt_bound {s : List Int} {A B : Int} (hA : A ≤ 0) (hB : 0 ≤ B)
    (hmem : ∀ a ∈ s, A ≤ a ∧ a ≤ B) {pos : ℚ} (hpos : 0 ≤ pos) :
    (A : ℚ) ≤ interpAt s pos ∧ interpAt s pos ≤ (B : ℚ) := by
  have hflnn : (0 : Int) ≤ ⌊pos⌋ := Int.floor_nonneg.mpr hpos
  have hfl : (((⌊pos⌋).toNat : Nat) : ℚ) = ((⌊pos⌋ : Int) : ℚ) := by
    exact_mod_cast congrArg (fun z => ((z : Int) : ℚ)) (Int.toNat_of_nonneg hflnn)
  have hfrac0 : 0 ≤ pos - (((⌊pos⌋).toNat : Nat) : ℚ) := by
    rw [hfl]
    have := Int.floor_le pos
    linarith
  have hfrac1 : pos - (((⌊pos⌋).toNat : Nat) : ℚ) < 1 := by
    rw [hfl]
    have := Int.lt_floor_add_one pos
    linarith
  rw [interpAt]
  split
  · obtain ⟨ha1, ha2⟩ := getD_bound hA hB hmem (⌊pos⌋).toNat
    obtain ⟨hb1, hb2⟩ := getD_bound hA hB hmem ((⌊pos⌋).toNat + 1)
    have ha1q : (A : ℚ) ≤ ((s.getD (⌊pos⌋).toNat 0 : Int) : ℚ) := by exact_mod_cast ha1
    have ha2q : ((s.getD (⌊pos⌋).toNat 0 : Int) : ℚ) ≤ (B : ℚ) := by exact_mod_cast ha2
    have hb1q : (A : ℚ) ≤ ((s.getD ((⌊pos⌋).toNat + 1) 0 : Int) : ℚ) := by exact_mod_cast hb1
    have hb2q : ((s.getD ((⌊pos⌋).toNat + 1) 0 : Int) : ℚ) ≤ (B : ℚ) := by exact_mod_cast hb2
    constructor <;> nlinarith
  · obtain ⟨h1, h2⟩ := getD_bound hA hB hmem (min (⌊pos⌋).toNat (s.length - 1))
    exact ⟨by exact_mod_cast h1, by exact_mod_cast h2⟩

/-- Claim C4: `downmix_to_mono_i16` is the identity for one channel;
otherwise each complete frame of `channel_count` interleaved samples is
replaced by its integer average with truncation toward zero, the trailing
partial frame is dropped (output length is the floor of `len /
channel_count`); in particular `[1000, 500, -2000, -1000]` at 2 channels
yields `[750, -1500]`. -/
theorem C4_downmix_spec :
    (∀ (data : List Int) (channels : Nat), 1 ≤ channels →
        (∀ a ∈ data, -32768 ≤ a ∧ a ≤ 32767) →
        ∃ out, downmix_to_mono_i16 data channels = some out
          ∧ (channels = 1 → out = data)
          ∧ out.length = data.length / channels
          ∧ ∀ i, i < out.length →
              out.getD i 0
                = Int.tdiv ((data.drop (i * channels)).take channels).sum (channels : Int))
    ∧ downmix_to_mono_i16 [1000, 500, -2000, -1000] 2 = some [750, -1500] := by
  constructor
  · intro data channels hc hmem
    rcases Nat.eq_or_lt_of_le hc with h1 | h2
    · subst h1
      refine ⟨data, by simp [downmix_to_mono_i16], fun _ => rfl, by simp, ?_⟩
      intro i hi
      have hi' : i < data.length := hi
      have hdrop : List.drop i data = data[i] :: List.drop (i + 1) data :=
        List.drop_eq_getElem_cons hi'
      have hsum : (List.take 1 (List.drop i data)).sum = data[i] := by
        rw [hdrop, List.take_succ_cons, List.take_zero, List.sum_cons, List.sum_nil, add_zero]
      rw [Nat.mul_one, hsum, Nat.cast_one, Int.tdiv_one]
      simp [List.getD_eq_getElem?_getD, List.getElem?_eq_getElem hi']
    · have hne1 : channels ≠ 1 := by omega
      have hne0 : channels ≠ 0 := by omega
      refine ⟨(chunksExact channels data).map
          (fun frame => wrap16 (Int.tdiv frame.sum (channels : Int))),
        by simp [downmix_to_mono_i16, hne1, hne0],
        fun h => absurd h hne1, by simp [chunksExact], ?_⟩
      intro i hi
      have hi' : i < data.length / channels := by
        simpa [chunksExact] using hi
      have hget : ((chunksExact channels data).map
          (fun frame => wrap16 (Int.tdiv frame.sum (channels : Int)))).getD i 0
          = wrap16 (Int.tdiv ((data.drop (i * channels)).take channels).sum (channels : Int)) := by
        simp [chunksExact, List.getD_eq_getElem?_getD, List.getElem?_map,
          List.getElem?_range hi']
      rw [hget]
      have hmemf : ∀ a ∈ (data.drop (i * channels)).take channels, -32768 ≤ a ∧ a ≤ 32767 :=
        fun a ha => hmem a (List.mem_of_mem_drop (List.mem_of_mem_take ha))
      have hlenf : ((data.drop (i * channels)).take channels).length ≤ channels := by
        simp [List.length_take]
      have hlenq : (((data.drop (i * channels)).take channels).length : Int) ≤ (channels : Int) := by
        exact_mod_cast hlenf
      have hub : ((data.drop (i * channels)).take channels).sum ≤ 32767 * (channels : Int) := by
        have h1 := List.sum_le_card_nsmul ((data.drop (i * channels)).take channels) 32767
          (fun a ha => (hmemf a ha).2)
        rw [nsmul_eq_mul] at h1
        nlinarith
      have hlb : -32768 * (channels : Int) ≤ ((data.drop (i * channels)).take channels).sum := by
        have h1 := List.card_nsmul_le_sum ((data.drop (i * channels)).take channels) (-32768)
          (fun a ha => (hmemf a ha).1)
        rw [nsmul_eq_mul] at h1
        nlinarith
      have hcpos : (0 : Int) < (channels : Int) := by
        exact_mod_cast Nat.pos_of_ne_zero hne0
      exact wrap16_eq_self
        (le_tdiv_of_mul_le hcpos (by norm_num) hlb)
        (tdiv_le_of_le_mul hcpos (by norm_num) hub)
  · decide

/-- Claim C4 witness: the frame characterization applied to a concrete
3-sample stereo buffer whose trailing partial frame is dropped. -/
theorem C4_downmix_spec_witness :
    ∃ out, downmix_to_mono_i16 [10, 20, 30] 2 = some out
      ∧ ((2 : Nat) = 1 → out = [10, 20, 30])
      ∧ out.length = ([10, 20, 30] : List Int).length / 2
      ∧ ∀ i, i < out.length →
          out.getD i 0
            = Int.tdiv ((([10, 20, 30] : List Int).drop (i * 2)).take 2).sum ((2 : Nat) : Int) :=
  C4_downmix_spec.1 [10, 20, 30] 2 (by decide) (by decide)

/-- Claim C3 as amended: the conversion utilities never fail on the inputs
the capture pipeline can produce — any buffer, any channel count of at
least 1, any from-rate of at least 1 and any to-rate — and degenerate
input degrades gracefully there: empty buffers give empty output, equal
rates give identity, a zero to-rate gives empty output, `f32_to_i16` and
the u16 recentering always land in the i16 range. The two exceptions the
counterexample forces are a zero channel count (`chunks_exact(0)` panics)
and a zero from-rate on a nonempty buffer (the f64 output length becomes
infinite and `Vec::with_capacity(usize::MAX)` panics). -/
theorem C3_conversions_total_on_sane_inputs :
    (∀ (data : List Int) (channels : Nat), 1 ≤ channels →
        ∃ out, downmix_to_mono_i16 data channels = some out)
    ∧ (∀ (samples : List Int) (from_rate to_rate : Nat), 1 ≤ from_rate →
        ∃ out, resample_simple samples from_rate to_rate = some out)
    ∧ (∀ q : ℚ, -32767 ≤ f32_to_i16 q ∧ f32_to_i16 q ≤ 32767)
    ∧ (∀ s : Nat, s < 65536 → -32768 ≤ uint16_to_int16 s ∧ uint16_to_int16 s ≤ 32767)
    ∧ (∀ channels : Nat, 1 ≤ channels → downmix_to_mono_i16 [] channels = some [])
    ∧ (∀ (samples : List Int) (r : Nat), resample_simple samples r r = some samples)
    ∧ (∀ from_rate to_rate : Nat, resample_simple [] from_rate to_rate = some [])
    ∧ (∀ (samples : List Int) (from_rate : Nat), 1 ≤ from_rate →
        resample_simple samples from_rate 0 = some []) := by
  refine ⟨?_, ?_, ?_, ?_, ?_, ?_, ?_, ?_⟩
  · intro data channels hc
    rcases Nat.eq_or_lt_of_le hc with h1 | h2
    · subst h1
      exact ⟨data, by simp [downmix_to_mono_i16]⟩
    · have hne1 : channels ≠ 1 := by omega
      have hne0 : channels ≠ 0 := by omega
      exact ⟨(chunksExact channels data).map
          (fun frame => wrap16 (Int.tdiv frame.sum (channels : Int))),
        by simp [downmix_to_mono_i16, hne1, hne0]⟩
  · intro samples from_rate to_rate hf
    by_cases hguard : from_rate = to_rate ∨ samples = []
    · exact ⟨samples, by simp [resample_simple, hguard]⟩
    · have hne0 : ¬from_rate = 0 := by omega
      exact ⟨(List.range ((⌈(samples.length : ℚ) / ((from_rate : ℚ) / (to_rate : ℚ))⌉).toNat)).map
          (fun (i : Nat) =>
            i16Sat (roundAway (interpAt samples ((i : ℚ) * ((from_rate : ℚ) / (to_rate : ℚ)))))),
        by simp [resample_simple, hguard, hne0]⟩
  · intro q
    have hcl1 : min 1 (max (-1) q) ≤ 1 := min_le_left _ _
    have hcl2 : (-1 : ℚ) ≤ min 1 (max (-1) q) :=
      le_min (by norm_num) (le_max_left _ _)
    have hub : min 1 (max (-1) q) * 32767 ≤ ((32767 : Int) : ℚ) := by
      push_cast
      nlinarith
    have hlb : ((-32767 : Int) : ℚ) ≤ min 1 (max (-1) q) * 32767 := by
      push_cast
      nlinarith
    have h1 := le_ratTrunc hlb
    have h2 := ratTrunc_le hub
    rw [f32_to_i16, i16Sat_eq_self (by omega) h2]
    exact ⟨h1, h2⟩
  · intro s hs
    rw [uint16_to_int16, wrap16]
    omega
  · intro channels hc
    rcases Nat.eq_or_lt_of_le hc with h1 | h2
    · subst h1
      simp [downmix_to_mono_i16]
    · have hne1 : channels ≠ 1 := by omega
      have hne0 : channels ≠ 0 := by omega
      simp [downmix_to_mono_i16, chunksExact, hne1, hne0]
  · intro samples r
    simp [resample_simple]
  · intro from_rate to_rate
    simp [resample_simple]
  · intro samples from_rate hf
    by_cases hs : samples = []
    · simp [resample_simple, hs]
    · have hne : ¬(from_rate = 0 ∨ samples = []) := by
        simp [hs]
        omega
      simp only [resample_simple]
      rw [if_neg (by simp [hs]; omega), if_neg (by omega)]
      norm_num

/-- Claim C3 witness: totality and graceful degradation applied at
concrete sane inputs. -/
theorem C3_conversions_total_on_sane_inputs_witness :
    (∃ out, downmix_to_mono_i16 [5, 7] 2 = some out)
    ∧ (∃ out, resample_simple [5, 7] 3 5 = some out)
    ∧ (-32768 ≤ uint16_to_int16 0 ∧ uint16_to_int16 0 ≤ 32767)
    ∧ downmix_to_mono_i16 [] 4 = some []
    ∧ resample_simple [9] 7 7 = some [9]
    ∧ resample_simple [9] 7 0 = some [] :=
  ⟨C3_conversions_total_on_sane_inputs.1 [5, 7] 2 (by decide),
   C3_conversions_total_on_sane_inputs.2.1 [5, 7] 3 5 (by decide),
   C3_conversions_total_on_sane_inputs.2.2.2.1 0 (by decide),
   C3_conversions_total_on_sane_inputs.2.2.2.2.1 4 (by decide),
   C3_conversions_total_on_sane_inputs.2.2.2.2.2.1 [9] 7,
   C3_conversions_total_on_sane_inputs.2.2.2.2.2.2.2 [9] 7 (by decide)⟩

/-- Claim C5 counterexample: the claim quantifies over *all* rates, but at
`from_rate = 0` with a nonempty buffer and a distinct `to_rate` the code
does not produce any output at all — the f64 output length
`ceil(len / (0/to))` is infinite, the `as usize` cast saturates to
`usize::MAX` and `Vec::with_capacity` panics (modelled as `none`), so no
buffer of the claimed length `ceil(len / ratio)` exists. -/
theorem C5_counterexample : resample_simple [5] 0 7 = none := rfl

/-- Claim C5 as amended: the linear resampler is the identity when the
rates are equal (any rate), maps the empty buffer to the empty buffer
(any rates), and otherwise — for *positive*, distinct rates, the sole
restriction the `from_rate = 0` panic forces, with genuine i16 samples —
produces `ceil(len / (from_rate / to_rate))` samples where output index
`i` is the linear interpolation of the two input samples bracketing
source position `i * (from_rate / to_rate)` — clamping at the final
sample when the position has no upper neighbour — rounded to the nearest
integer (ties away from zero, as `f64::round`). The i16 cast never alters
the value because the interpolant stays within the sample bounds. -/
theorem C5_resample_linear_spec :
    (∀ (x : List Int) (r : Nat), resample_simple x r r = some x)
    ∧ (∀ r1 r2 : Nat, resample_simple [] r1 r2 = some [])
    ∧ (∀ (samples : List Int) (from_rate to_rate : Nat),
        0 < from_rate → 0 < to_rate → from_rate ≠ to_rate → samples ≠ [] →
        (∀ a ∈ samples, -32768 ≤ a ∧ a ≤ 32767) →
        ∃ out, resample_simple samples from_rate to_rate = some out
          ∧ out.length
              = (⌈(samples.length : ℚ) / ((from_rate : ℚ) / (to_rate : ℚ))⌉).toNat
          ∧ ∀ i, i < out.length →
              out.getD i 0
                = roundAway (interpAt samples ((i : ℚ) * ((from_rate : ℚ) / (to_rate : ℚ))))) := by
  refine ⟨fun x r => by simp [resample_simple], fun r1 r2 => by simp [resample_simple], ?_⟩
  intro samples from_rate to_rate hf ht hne hnil hmem
  have hguard : ¬(from_rate = to_rate ∨ samples = []) := by
    simp [hne, hnil]
  have hne0 : ¬from_rate = 0 := by omega
  refine ⟨(List.range ((⌈(samples.length : ℚ) / ((from_rate : ℚ) / (to_rate : ℚ))⌉).toNat)).map
      (fun (i : Nat) =>
        i16Sat (roundAway (interpAt samples ((i : ℚ) * ((from_rate : ℚ) / (to_rate : ℚ)))))),
    by simp [resample_simple, hguard, hne0], by simp, ?_⟩
  intro i hi
  have hi' : i < (⌈(samples.length : ℚ) / ((from_rate : ℚ) / (to_rate : ℚ))⌉).toNat := by
    simpa using hi
  have hget : ((List.range ((⌈(samples.length : ℚ) / ((from_rate : ℚ) / (to_rate : ℚ))⌉).toNat)).map
      (fun (i : Nat) =>
        i16Sat (roundAway (interpAt samples ((i : ℚ) * ((from_rate : ℚ) / (to_rate : ℚ))))))).getD i 0
      = i16Sat (roundAway (interpAt samples ((i : ℚ) * ((from_rate : ℚ) / (to_rate : ℚ))))) := by
    simp [List.getD_eq_getElem?_getD, List.getElem?_map, List.getElem?_range hi']
  rw [hget]
  have hpos : 0 ≤ ((i : ℚ) * ((from_rate : ℚ) / (to_rate : ℚ))) := by
    positivity
  have hbound := interpAt_bound (by norm_num) (by norm_num) hmem hpos
  exact i16Sat_eq_self
    (le_roundAway (le_trans (by norm_num) hbound.1))
    (roundAway_le (le_trans hbound.2 (by norm_num)))

/-- Claim C5 witness: the characterization applied to a concrete upsample
of a two-sample buffer with distinct positive rates. -/
theorem C5_resample_linear_spec_witness :
    ∃ out, resample_simple [0, 7] 32000 16000 = some out
      ∧ out.length
          = (⌈(([0, 7] : List Int).length : ℚ) / (((32000 : Nat) : ℚ) / ((16000 : Nat) : ℚ))⌉).toNat
      ∧ ∀ i, i < out.length →
          out.getD i 0
            = roundAway (interpAt [0, 7] ((i : ℚ) * (((32000 : Nat) : ℚ) / ((16000 : Nat) : ℚ)))) :=
  C5_resample_linear_spec.2.2 [0, 7] 32000 16000 (by decide) (by decide) (by decide)
    (by decide) (by decide)

/-- Claim C1 counterexample: in mic-only mode the hardware callback
forwards the converted, downmixed buffer *without* resampling, even when
the negotiated device rate (here 48000) differs from the canonical
16000: a 3-sample mono buffer is forwarded as 3 samples, while the claim
requires the 1-sample result of resampling it from 48000 to 16000. -/
theorem C1_counterexample :
    start_mic_capture_onI16 true 1 [0, 0, 0] = CallbackResult.sent [0, 0, 0]
    ∧ resample_simple [0, 0, 0] 48000 16000 = some [0]
    ∧ ([0, 0, 0] : List Int) ≠ [0] := by
  refine ⟨by decide, ?_, by decide⟩
  have hlen : (⌈(([0, 0, 0] : List Int).length : ℚ)
      / (((48000 : Nat) : ℚ) / ((16000 : Nat) : ℚ))⌉).toNat = 1 := by
    push_cast
    norm_num
  rw [resample_simple, if_neg (by simp), if_neg (by simp), hlen]
  have h0 : interpAt [0, 0, 0] ((0 : ℚ) * (((48000 : Nat) : ℚ) / ((16000 : Nat) : ℚ))) = 0 := by
    rw [interpAt]
    norm_num
  simp only [List.range_succ, List.range_zero, List.map, List.nil_append, Nat.cast_zero]
  rw [h0]
  rw [roundAway, if_pos (by norm_num)]
  norm_num [i16Sat]

/-- Claim C1 as amended: while the capturing flag is false every callback
in both modes drops its buffer silently. While it is true, the callbacks
of `start_visio_mic` (the microphone leg of mixed-source mode) forward
the buffer converted to signed 16-bit, downmixed to mono and resampled
from the negotiated rate to 16 kHz; the callbacks of `start_mic_capture`
(mic-only mode) forward the buffer converted and downmixed but *not*
resampled — the chunk stays at the negotiated device rate, which the
engine records in `actual_sample_rate` so that the streaming client
resamples downstream. -/
theorem C1_capture_callback_pipelines :
    (∀ (channels : Nat) (data : List Int),
        start_mic_capture_onI16 false channels data = .dropped)
    ∧ (∀ (channels : Nat) (data : List ℚ),
        start_mic_capture_onF32 false channels data = .dropped)
    ∧ (∀ (channels : Nat) (data : List Nat),
        start_mic_capture_onU16 false channels data = .dropped)
    ∧ (∀ (channels mic_rate : Nat) (data : List Int),
        start_visio_mic_onI16 false channels mic_rate data = .dropped)
    ∧ (∀ (channels mic_rate : Nat) (data : List ℚ),
        start_visio_mic_onF32 false channels mic_rate data = .dropped)
    ∧ (∀ (channels mic_rate : Nat) (data : List Nat),
        start_visio_mic_onU16 false channels mic_rate data = .dropped)
    ∧ (∀ (channels : Nat) (data mono : List Int),
        downmix_to_mono_i16 data channels = some mono →
        start_mic_capture_onI16 true channels data = .sent mono)
    ∧ (∀ (channels : Nat) (data : List ℚ) (mono : List Int),
        downmix_to_mono_i16 (data.map f32_to_i16) channels = some mono →
        start_mic_capture_onF32 true channels data = .sent mono)
    ∧ (∀ (channels : Nat) (data : List Nat) (mono : List Int),
        downmix_to_mono_i16 (data.map uint16_to_int16) channels = some mono →
        start_mic_capture_onU16 true channels data = .sent mono)
    ∧ (∀ (channels mic_rate : Nat) (data mono out : List Int),
        downmix_to_mono_i16 data channels = some mono →
        resample_simple mono mic_rate 16000 = some out →
        start_visio_mic_onI16 true channels mic_rate data = .sent out)
    ∧ (∀ (channels mic_rate : Nat) (data : List ℚ) (mono out : List Int),
        downmix_to_mono_i16 (data.map f32_to_i16) channels = some mono →
        resample_simple mono mic_rate 16000 = some out →
        start_visio_mic_onF32 true channels mic_rate data = .sent out)
    ∧ (∀ (channels mic_rate : Nat) (data : List Nat) (mono out : List Int),
        downmix_to_mono_i16 (data.map uint16_to_int16) channels = some mono →
        resample_simple mono mic_rate 16000 = some out →
        start_visio_mic_onU16 true channels mic_rate data = .sent out) := by
  refine ⟨fun c d => rfl, fun c d => rfl, fun c d => rfl,
    fun c r d => rfl, fun c r d => rfl, fun c r d => rfl, ?_, ?_, ?_, ?_, ?_, ?_⟩
  · intro channels data mono h
    simp [start_mic_capture_onI16, h]
  · intro channels data mono h
    simp [start_mic_capture_onF32, h]
  · intro channels data mono h
    simp [start_mic_capture_onU16, h]
  · intro channels mic_rate data mono out h1 h2
    simp [start_visio_mic_onI16, h1, h2]
  · intro channels mic_rate data mono out h1 h2
    simp [start_visio_mic_onF32, h1, h2]
  · intro channels mic_rate data mono out h1 h2
    simp [start_visio_mic_onU16, h1, h2]

/-- Claim C1 amended witness: the drop path, the mic-only forward (stereo
average, no resampling) and the mixed-source mic forward (equal rates, so
identity resample) at concrete buffers. -/
theorem C1_capture_callback_pipelines_witness :
    start_mic_capture_onI16 false 2 [5, 5] = CallbackResult.dropped
    ∧ start_mic_capture_onI16 true 2 [1000, 500, -2000, -1000]
        = CallbackResult.sent [750, -1500]
    ∧ start_visio_mic_onI16 true 1 16000 [7] = CallbackResult.sent [7] :=
  ⟨C1_capture_callback_pipelines.1 2 [5, 5],
   C1_capture_callback_pipelines.2.2.2.2.2.2.1 2 [1000, 500, -2000, -1000] [750, -1500]
     (by decide),
   C1_capture_callback_pipelines.2.2.2.2.2.2.2.2.2.1 1 16000 [7] [7] [7]
     (by decide) (by decide)⟩
